import Mathlib

/-!
Verification development for the jupyterlab-web-llm-completer repository.

The foreground coordinator (class WebLLMInlineProvider in the plugin entry
file) and the background worker (class Worker in the worker file) are embedded
shallowly: every stateful method becomes an explicit state-passing function,
JavaScript strings become Lean String, JS numbers used as counters become Nat,
floating sampling parameters become Rat (they are only carried, never computed
with), nullable values become Option, and code paths that throw return an
explicit error value.  Promise delegates (lumino PromiseDelegate) are modelled
as heap cells: an allocation counter plus an association list from cell id to
cell state, since the map of delegates can be replaced while a consumer still
holds a reference to an old delegate.
-/

namespace WebLLM

/-- One yielded element of the per-token stream: the IStream interface of the
plugin entry file (done flag plus an inline completion item; only the
insertText field of the response is ever set). -/
structure IStream where
  done : Bool
  insertText : String
deriving DecidableEq, Repr, Inhabited

/-- State of one PromiseDelegate cell for a stream pull. -/
inductive Deleg where
  | pending
  | resolved (s : IStream)
  | rejected
deriving DecidableEq, Repr, Inhabited

/-- An inline completion item as returned by fetch: insertText, isIncomplete
and the correlation token. -/
structure CompletionItem where
  insertText : String
  isIncomplete : Bool
  token : String
deriving DecidableEq, Repr, Inhabited

/-- The ISettings interface: generation configuration plus model selection. -/
structure ISettings where
  codeModel : String
  textModel : String
  temperature : Rat
  top_p : Option Rat
  generateN : Nat
  max_gen_len : Nat
  frequency_penalty : Rat
  presence_penalty : Rat
  repetition_penalty : Rat
  maxContextWindow : Nat
deriving DecidableEq, Repr, Inhabited

/-- DEFAULT_SETTINGS of the plugin entry file. -/
def DEFAULT_SETTINGS : ISettings :=
  { codeModel := "none"
  , textModel := "Llama-3-8B-Instruct-q4f32_1-1k"
  , temperature := 1/2
  , top_p := none
  , generateN := 2
  , max_gen_len := 512
  , frequency_penalty := 0
  , presence_penalty := 0
  , repetition_penalty := 0
  , maxContextWindow := 525 }

/-- The generate message posted by fetch (ClientMessage.IGenerate).  The
TypeScript interface inherits a max_gen_len field from
ChatCompletionRequestBase, but the object literal posted by fetch does not set
it, so the field is an Option and fetch leaves it none (undefined). -/
structure GenerateMsg where
  model : String
  text : String
  systemPrompt : String
  temperature : Rat
  top_p : Option Rat
  generateN : Nat
  frequency_penalty : Rat
  presence_penalty : Rat
  idTokens : List String
  counter : Nat
  max_gen_len : Option Nat
deriving DecidableEq, Repr, Inhabited

/-- Messages posted from the worker to the foreground (WorkerMessage),
discriminated by the status field.  The exception variant carries an optional
token list: the worker posts it without idTokens on a load failure and with
idTokens on a mid-stream failure. -/
inductive WorkerMsg where
  | workerStarted
  | initiate (model : String)
  | progress (model : String) (text : String) (progressValue : Rat) (timeElapsed : Rat)
  | done (model : String)
  | ready (model : String)
  | update (idToken : String) (output : String)
  | complete (idToken : String) (output : String)
  | interrupted (idTokens : List String) (error : Option String)
  | exception (idTokens : Option (List String)) (error : Option String)
deriving DecidableEq, Repr, Inhabited

/-- Foreground coordinator state: the private fields of WebLLMInlineProvider.
The shared Int32Array cell (index 0) is written only by the foreground, so it
lives here; the worker reads it.  streamPromises maps a token to the id of a
delegate cell in the delegates heap; ready maps a model name to whether its
readiness PromiseDelegate has been resolved. -/
structure Coord where
  currentGeneration : Nat
  tokenCounter : Nat
  streamPromises : List (String × Nat)
  delegates : List (Nat × Deleg)
  nextDelegate : Nat
  ready : List (String × Bool)
  shared : Nat
  notifications : List String
  workerStarted : Bool
deriving DecidableEq, Repr, Inhabited

/-- Initial coordinator state right after construction. -/
def initCoord : Coord :=
  { currentGeneration := 0
  , tokenCounter := 0
  , streamPromises := []
  , delegates := []
  , nextDelegate := 0
  , ready := []
  , shared := 0
  , notifications := []
  , workerStarted := false }

/-- Association-list update: set key to value, overwriting an existing entry
(the semantics of Map.set and of assignment into a Record). -/
def setEntry {β : Type} (k : String) (v : β) : List (String × β) → List (String × β)
  | [] => [(k, v)]
  | (k2, v2) :: rest => if k2 = k then (k, v) :: rest else (k2, v2) :: setEntry k v rest

/-- Association-list removal (the semantics of Map.delete). -/
def eraseEntry {β : Type} (k : String) : List (String × β) → List (String × β)
  | [] => []
  | (k2, v2) :: rest => if k2 = k then rest else (k2, v2) :: eraseEntry k rest

/-- Association-list lookup (the semantics of Map.get and of Record indexing;
none models undefined). -/
def lookupEntry {β : Type} (k : String) : List (String × β) → Option β
  | [] => none
  | (k2, v2) :: rest => if k2 = k then some v2 else lookupEntry k rest

/-- Heap update for a delegate cell by id. -/
def setDeleg (d : Nat) (v : Deleg) : List (Nat × Deleg) → List (Nat × Deleg)
  | [] => [(d, v)]
  | (d2, v2) :: rest => if d2 = d then (d, v) :: rest else (d2, v2) :: setDeleg d v rest

/-- Heap lookup for a delegate cell by id. -/
def getDeleg (d : Nat) : List (Nat × Deleg) → Option Deleg
  | [] => none
  | (d2, v2) :: rest => if d2 = d then some v2 else getDeleg d rest

/-- Resolving a PromiseDelegate: a no-op unless the promise is still pending. -/
def resolveDeleg (c : Coord) (d : Nat) (v : IStream) : Coord :=
  match getDeleg d c.delegates with
  | some Deleg.pending => { c with delegates := setDeleg d (Deleg.resolved v) c.delegates }
  | _ => c

/-- Rejecting a PromiseDelegate: a no-op unless the promise is still pending. -/
def rejectDeleg (c : Coord) (d : Nat) : Coord :=
  match getDeleg d c.delegates with
  | some Deleg.pending => { c with delegates := setDeleg d Deleg.rejected c.delegates }
  | _ => c

/-- The tickWorker method: store the current generation counter into the
shared cell and notify. -/
def tickWorker (c : Coord) : Coord :=
  { c with shared := c.currentGeneration }

/-- The abortPrevious method: increment the generation counter, then tick. -/
def abortPrevious (c : Coord) : Coord :=
  tickWorker { c with currentGeneration := c.currentGeneration + 1 }

/-- Handler for a worker-started message. -/
def msgWorkerStarted (c : Coord) : Coord :=
  { c with workerStarted := true }

/-- Handler for an initiate message: install a fresh (pending) readiness
delegate for the model and show a loading notification. -/
def msgInitiate (c : Coord) (model : String) : Coord :=
  { c with ready := setEntry model false c.ready
         , notifications := c.notifications ++ ["Loading " ++ model] }

/-- Handler for a progress message: update the loading notification. -/
def msgProgress (c : Coord) (model text : String) : Coord :=
  { c with notifications := c.notifications ++ ["Loading " ++ model ++ ": " ++ text] }

/-- Handler for a done message: update the notification to compiling. -/
def msgDone (c : Coord) (model : String) : Coord :=
  { c with notifications := c.notifications ++ ["Loaded " ++ model ++ ", compiling..."] }

/-- Handler for a ready message: dismiss the notification and resolve the
readiness delegate for the model. -/
def msgReady (c : Coord) (model : String) : Coord :=
  { c with ready := setEntry model true c.ready }

/-- Handler for an update message: tick the worker, then resolve the pending
stream delegate for the token with a non-terminal value; if no delegate is
registered for the token the message is dropped with a console warning.  The
delegate is not removed from the map. -/
def msgUpdate (c : Coord) (idToken output : String) : Coord :=
  let c1 := tickWorker c
  match lookupEntry idToken c1.streamPromises with
  | none => c1
  | some d => resolveDeleg c1 d { done := false, insertText := output }

/-- Handler for a complete message: resolve the delegate with a terminal
value and remove the token from the map. -/
def msgComplete (c : Coord) (idToken output : String) : Coord :=
  let c1 :=
    match lookupEntry idToken c.streamPromises with
    | none => c
    | some d => resolveDeleg c d { done := true, insertText := output }
  { c1 with streamPromises := eraseEntry idToken c1.streamPromises }

/-- Handler for an interrupted message: for each listed token, reject its
delegate if one is registered, then remove the token from the map. -/
def msgInterrupted (c : Coord) (idTokens : List String) : Coord :=
  match idTokens with
  | [] => c
  | t :: rest =>
    let c1 :=
      match lookupEntry t c.streamPromises with
      | none => c
      | some d => rejectDeleg c d
    msgInterrupted { c1 with streamPromises := eraseEntry t c1.streamPromises } rest

/-- Handler for an exception message: show an error notification and log it.
No stream delegate is touched. -/
def msgException (c : Coord) (error : Option String) : Coord :=
  { c with notifications :=
      c.notifications ++ ["Worker error: " ++ error.getD "undefined"] }

/-- Dispatcher for inbound worker messages (the onMessageReceived switch). -/
def dispatch (c : Coord) : WorkerMsg → Coord
  | WorkerMsg.workerStarted => msgWorkerStarted c
  | WorkerMsg.initiate m => msgInitiate c m
  | WorkerMsg.progress m t _ _ => msgProgress c m t
  | WorkerMsg.done m => msgDone c m
  | WorkerMsg.ready m => msgReady c m
  | WorkerMsg.update t o => msgUpdate c t o
  | WorkerMsg.complete t o => msgComplete c t o
  | WorkerMsg.interrupted ts _ => msgInterrupted c ts
  | WorkerMsg.exception _ e => msgException c e

/-- The fixed list of MIME types classified as text content. -/
def textMimeTypes : List String :=
  [ "text/x-ipythongfm"
  , "text/x-markdown"
  , "text/plain"
  , "text/x-rst"
  , "text/x-latex"
  , "text/x-rsrc" ]

/-- Content classification of fetch: listed MIME types are text, everything
else is code. -/
def classifyIsText (mimeType : String) : Bool :=
  textMimeTypes.contains mimeType

/-- Model selected by fetch for a request. -/
def selectedModel (s : ISettings) (mimeType : String) : String :=
  if classifyIsText mimeType then s.textModel else s.codeModel

/-- The system prompt built by fetch. -/
def systemPromptFor (isText : Bool) : String :=
  "You are a completion model generating "
    ++ (if isText then "Markdown" else "code") ++ " suggestions"

/-- JavaScript s.slice(-k) for a natural k already clamped to the length:
slice(-0) is slice(0), the whole string. -/
def jsSliceLast (s : String) (k : Nat) : String :=
  if k = 0 then s else s.drop (s.length - k)

/-- The prefixFromRequest method: take the text before the cursor, then its
last min(maxContextWindow, length) characters. -/
def prefixFromRequest (maxContextWindow : Nat) (text : String) (offset : Nat) : String :=
  let textBefore := text.take offset
  jsSliceLast textBefore (min maxContextWindow textBefore.length)

/-- Token minting: the string T followed by the decimal counter value. -/
def mintToken (n : Nat) : String :=
  "T" ++ Nat.repr n

/-- The token-minting loop of fetch: increments the token counter once per
candidate and returns the new counter plus the minted tokens in order. -/
def mintTokens (counter : Nat) : Nat → Nat × List String
  | 0 => (counter, [])
  | n + 1 =>
    let t := mintToken (counter + 1)
    let (c2, rest) := mintTokens (counter + 1) n
    (c2, t :: rest)

/-- Result of a fetch call.  The readiness lookup this.ready[model] yields
undefined when the model never produced an initiate event, and reading its
promise property then throws a TypeError before any state was mutated;
blocked models an await on a never-resolved readiness promise (the state is
likewise unchanged at the suspension point). -/
inductive FetchResult where
  | ok (c : Coord) (msg : GenerateMsg) (items : List CompletionItem)
  | blocked (c : Coord)
  | errorUndefinedReady (c : Coord)
deriving DecidableEq, Repr, Inhabited

/-- The fetch method: classify, await readiness, abort the previous
generation, clear the stream delegates, mint candidate tokens, dispatch one
generate message and return the placeholder items. -/
def fetch (c : Coord) (s : ISettings) (mimeType text : String) (offset : Nat) : FetchResult :=
  let isText := classifyIsText mimeType
  let model := if isText then s.textModel else s.codeModel
  match lookupEntry model c.ready with
  | none => FetchResult.errorUndefinedReady c
  | some false => FetchResult.blocked c
  | some true =>
    let c1 := abortPrevious c
    let c2 := { c1 with streamPromises := [] }
    let pre := prefixFromRequest s.maxContextWindow text offset
    let (counter2, idTokens) := mintTokens c2.tokenCounter s.generateN
    let items := idTokens.map (fun t =>
      { insertText := "", isIncomplete := true, token := t })
    let msg : GenerateMsg :=
      { model := model
      , text := pre
      , systemPrompt := systemPromptFor isText
      , temperature := s.temperature
      , top_p := s.top_p
      , generateN := s.generateN
      , frequency_penalty := s.frequency_penalty
      , presence_penalty := s.presence_penalty
      , idTokens := idTokens
      , counter := c2.currentGeneration
      , max_gen_len := none }
    FetchResult.ok { c2 with tokenCounter := counter2 } msg items

/-- One observed outcome of a pull on the stream generator. -/
inductive PullOutcome where
  | value (s : IStream)
  | rejection
deriving DecidableEq, Repr, Inhabited

/-- Semantics of the stream async generator: given the sequence of outcomes
its successive pulls would see, the list of values it yields.  The loop exits
after a done value, and a rejection terminates the generator with an
exception, yielding nothing further. -/
def streamYields : List PullOutcome → List IStream
  | [] => []
  | PullOutcome.rejection :: _ => []
  | PullOutcome.value v :: rest =>
    v :: (if v.done then [] else streamYields rest)

/-! ### Background worker -/

/-- Background worker state: whether the shared buffer is bound and the set of
model names owning a CompletionModel in the registry map. -/
structure WorkerSt where
  sharedBound : Bool
  completionModels : List String
deriving DecidableEq, Repr, Inhabited

/-- Errors a worker routine can throw. -/
inductive JsErr where
  | typeError
  | error (message : String)
deriving DecidableEq, Repr, Inhabited

/-- The initializeModel method of the worker registry: if a CompletionModel
already exists for the name, return without any event or new load; otherwise
post an initiate event, construct the model (starting its asynchronous load)
and register it.  The returned Nat counts loads started (0 or 1). -/
def initializeModel (st : WorkerSt) (model : String) : WorkerSt × List WorkerMsg × Nat :=
  if st.completionModels.contains model then (st, [], 0)
  else
    ({ st with completionModels := model :: st.completionModels }
    , [WorkerMsg.initiate model], 1)

/-- Events emitted by one asynchronous model load once it settles: each
progress callback posts a progress event; resolution posts a done event; a
rejection is caught by the message handler and posted as an exception event
without tokens.  No other event is produced by the load path. -/
def loadEvents (model : String) (reports : List (String × Rat × Rat))
    (result : Except String Unit) : List WorkerMsg :=
  reports.map (fun r => WorkerMsg.progress model r.1 r.2.1 r.2.2)
    ++ match result with
       | Except.ok _ => [WorkerMsg.done model]
       | Except.error e => [WorkerMsg.exception none (some e)]

/-- Repeated initializeModel calls for one model name (no intervening
dispose), collecting the immediate events and the number of loads started. -/
def repeatInit (st : WorkerSt) (model : String) : Nat → WorkerSt × List WorkerMsg × Nat
  | 0 => (st, [], 0)
  | n + 1 =>
    let (st1, ms1, k1) := initializeModel st model
    let (st2, ms2, k2) := repeatInit st1 model n
    (st2, ms1 ++ ms2, k1 + k2)

/-- The disposeModel handler: a no-op when no registry entry exists, otherwise
evict the entry and dispose the model. -/
def disposeModel (st : WorkerSt) (model : String) : WorkerSt :=
  if st.completionModels.contains model then
    { st with completionModels := st.completionModels.erase model }
  else st

/-- The streaming chat-completion request the generate routine submits to the
engine (the fields of the ChatCompletionRequest literal). -/
structure ChatRequest where
  stream : Bool
  systemContent : String
  userContent : String
  n : Nat
  temperature : Rat
  frequency_penalty : Rat
  presence_penalty : Rat
  max_gen_len : Option Nat
  top_p : Option Rat
deriving DecidableEq, Repr, Inhabited

/-- Construction of the engine request inside the generate routine.  The
system message content is the hard-coded pirate-chatbot string, not the
systemPrompt field of the inbound message, and max_gen_len is copied from the
inbound message (where fetch left it unset). -/
def buildRequest (g : GenerateMsg) : ChatRequest :=
  { stream := true
  , systemContent := "You are a pirate chatbot who always responds in pirate speak!"
  , userContent := g.text
  , n := g.idTokens.length
  , temperature := g.temperature
  , frequency_penalty := g.frequency_penalty
  , presence_penalty := g.presence_penalty
  , max_gen_len := g.max_gen_len
  , top_p := g.top_p }

/-- One streamed chunk: the optional delta content per candidate index (the
final chunk carries undefined content). -/
structure Chunk where
  choices : List (Option String)
deriving DecidableEq, Repr, Inhabited

/-- JavaScript truthiness-guarded accumulation: output is extended by the
delta content only when the content is defined and non-empty. -/
def jsTruthyAppend (o : String) (c : Option String) : String :=
  match c with
  | some s => if s = "" then o else o ++ s
  | none => o

/-- One pass of the inner candidate loop: accumulate each delta of the chunk
into the per-candidate output buffers. -/
def accumChunk (output : List String) (c : Chunk) (n : Nat) : List String :=
  (List.range n).map (fun i => jsTruthyAppend (output.getD i "") (c.choices.getD i none))

/-- The update events posted for one chunk: for every candidate, the full
accumulated output with the first promptLen characters trimmed off. -/
def updatesFor (idTokens : List String) (output : List String) (promptLen : Nat) :
    List WorkerMsg :=
  (idTokens.zip output).map (fun p => WorkerMsg.update p.1 (p.2.drop promptLen))

/-- The chunk loop of the generate routine.  Each element of chunks pairs the
shared-cell value read at the top of the iteration with the chunk; a mismatch
with the captured counter interrupts the engine and throws, which the catch
turns into a single interrupted event carrying all candidate tokens.  Returns
the events, the final output buffers and whether the loop was interrupted. -/
def streamChunks (startCounter : Nat) (idTokens : List String) (promptLen : Nat) :
    List (Nat × Chunk) → List String → List WorkerMsg × List String × Bool
  | [], output => ([], output, false)
  | (r, c) :: rest, output =>
    if r = startCounter then
      let output2 := accumChunk output c idTokens.length
      let (ms, output3, intr) := streamChunks startCounter idTokens promptLen rest output2
      (updatesFor idTokens output2 promptLen ++ ms, output3, intr)
    else
      ([WorkerMsg.interrupted idTokens (some "Execution interrupted")], output, true)

/-- Shallow embedding of the JavaScript property access generated_text on a
string value: strings have no such property, so the access yields
undefined. -/
def stringGeneratedText (_s : String) : Option String := none

/-- JavaScript x.substring(k) where x may be undefined: a TypeError on
undefined, otherwise the characters from index k on. -/
def jsSubstringOfOpt : Option String → Nat → Except JsErr String
  | none, _ => Except.error JsErr.typeError
  | some s, k => Except.ok (s.drop k)

/-- The final loop of the generate routine, run after the try-catch: for each
candidate it evaluates output[i].generated_text.substring(promptLen) and posts
a complete event with the result.  The property access yields undefined on a
string buffer, so the first iteration throws before posting anything. -/
def completePhase (promptLen : Nat) : List (String × String) → List WorkerMsg × Option JsErr
  | [] => ([], none)
  | (o, t) :: rest =>
    match jsSubstringOfOpt (stringGeneratedText o) promptLen with
    | Except.error e => ([], some e)
    | Except.ok s =>
      let (ms, err) := completePhase promptLen rest
      (WorkerMsg.complete t s :: ms, err)

/-- The generate routine of the worker.  Parameters supply the environment:
whether initializeBuffer was processed, the outcome of resolving the model
instance, the shared-cell value read after the load, and the chunk stream
(each chunk paired with the shared-cell value read at its iteration).  Returns
every event posted plus the error, if any, escaping the routine. -/
def generateRun (bound : Bool) (loadResult : Except String Unit) (sharedAtStart : Nat)
    (g : GenerateMsg) (chunks : List (Nat × Chunk)) : List WorkerMsg × Option JsErr :=
  if bound = false then
    ([], some (JsErr.error "Cannot generate before initializeBuffer message got processed"))
  else
    match loadResult with
    | Except.error e => ([WorkerMsg.exception none (some e)], none)
    | Except.ok _ =>
      if sharedAtStart ≠ g.counter then ([], none)
      else
        let output0 := List.replicate g.idTokens.length ""
        let (ms, output, _intr) :=
          streamChunks g.counter g.idTokens g.text.length chunks output0
        let (cs, err) := completePhase g.text.length (output.zip g.idTokens)
        (ms ++ cs, err)

/-! ### Composite system: foreground, worker and one stream consumer

An interleaving model of the whole deployment for temporal claims.  The
foreground coordinator, the worker (with its registry and at most one active
generate routine), the two message channels (per-channel FIFO) and one
consumer iterating the stream generator for a fixed token evolve by explicit
scheduler actions. -/

/-- Progress of the worker generate routine: idle, mid chunk-loop, or
finished (returned or threw). -/
inductive WGen where
  | idle
  | streaming (startCounter : Nat) (promptText : String)
      (idTokens : List String) (output : List String)
  | finished
deriving DecidableEq, Repr, Inhabited

/-- State of the consumer driving the stream generator for one token: the
delegate cell id of its outstanding pull, its observations in order, and
whether the generator has terminated (done value or rejection). -/
structure ConsumerSt where
  token : String
  hold : Option Nat
  observed : List PullOutcome
  dead : Bool
deriving DecidableEq, Repr, Inhabited

/-- Whole-system state. -/
structure Sys where
  coord : Coord
  worker : WorkerSt
  wgen : WGen
  toWorker : List GenerateMsg
  toFg : List WorkerMsg
  consumer : ConsumerSt
deriving DecidableEq, Repr, Inhabited

/-- Scheduler actions: a fetch call on the foreground, delivery of one worker
message to the foreground, a consumer pull or wake-up, the worker picking up
a queued generate message, the worker processing one streamed chunk, and the
normal end of the chunk stream. -/
inductive Act where
  | fetchCall (mimeType text : String) (offset : Nat)
  | deliver
  | pull
  | wake
  | wstart
  | wchunk (c : Chunk)
  | wend
deriving DecidableEq, Repr, Inhabited

/-- One scheduler step; none when the action is not enabled.  wstart assumes
the model instance resolves successfully (the load-failure path is covered by
generateRun).  The shared cell is the shared field of the coordinator: the
foreground writes it, the worker reads it. -/
def step (s : ISettings) (sys : Sys) : Act → Option Sys
  | Act.fetchCall mimeType text offset =>
    match fetch sys.coord s mimeType text offset with
    | FetchResult.ok c msg _items =>
      some { sys with coord := c, toWorker := sys.toWorker ++ [msg] }
    | _ => none
  | Act.deliver =>
    match sys.toFg with
    | [] => none
    | m :: rest => some { sys with coord := dispatch sys.coord m, toFg := rest }
  | Act.pull =>
    if sys.consumer.dead ∨ sys.consumer.hold.isSome then none
    else
      let d := sys.coord.nextDelegate
      some { sys with
        coord := { sys.coord with
          delegates := setDeleg d Deleg.pending sys.coord.delegates
        , nextDelegate := d + 1
        , streamPromises := setEntry sys.consumer.token d sys.coord.streamPromises }
      , consumer := { sys.consumer with hold := some d } }
  | Act.wake =>
    match sys.consumer.hold with
    | none => none
    | some d =>
      match getDeleg d sys.coord.delegates with
      | some (Deleg.resolved v) =>
        some { sys with consumer := { sys.consumer with
          hold := none
        , observed := sys.consumer.observed ++ [PullOutcome.value v]
        , dead := v.done } }
      | some Deleg.rejected =>
        some { sys with consumer := { sys.consumer with
          hold := none
        , observed := sys.consumer.observed ++ [PullOutcome.rejection]
        , dead := true } }
      | _ => none
  | Act.wstart =>
    match sys.wgen, sys.toWorker with
    | WGen.idle, g :: rest =>
      let (w2, initMsgs, _) := initializeModel sys.worker g.model
      if sys.coord.shared ≠ g.counter then
        some { sys with
          worker := w2
        , toWorker := rest
        , toFg := sys.toFg ++ initMsgs }
      else
        some { sys with
          worker := w2
        , toWorker := rest
        , toFg := sys.toFg ++ initMsgs
        , wgen := WGen.streaming g.counter g.text g.idTokens
            (List.replicate g.idTokens.length "") }
    | _, _ => none
  | Act.wchunk c =>
    match sys.wgen with
    | WGen.streaming startCounter promptText idTokens output =>
      if sys.coord.shared = startCounter then
        let output2 := accumChunk output c idTokens.length
        some { sys with
          wgen := WGen.streaming startCounter promptText idTokens output2
        , toFg := sys.toFg ++ updatesFor idTokens output2 promptText.length }
      else
        some { sys with
          wgen := WGen.finished
        , toFg := sys.toFg
            ++ [WorkerMsg.interrupted idTokens (some "Execution interrupted")] }
    | _ => none
  | Act.wend =>
    match sys.wgen with
    | WGen.streaming _ promptText idTokens output =>
      let (cs, _err) := completePhase promptText.length (output.zip idTokens)
      some { sys with wgen := WGen.finished, toFg := sys.toFg ++ cs }
    | _ => none

/-- Run a list of scheduler actions. -/
def runActs (s : ISettings) : Sys → List Act → Option Sys
  | sys, [] => some sys
  | sys, a :: rest =>
    match step s sys a with
    | none => none
    | some sys2 => runActs s sys2 rest

/-! ### Sequences of fetch calls -/

/-- Inputs of one fetch call. -/
structure FetchInput where
  mimeType : String
  text : String
  offset : Nat
deriving DecidableEq, Repr, Inhabited

/-- Run a sequence of fetch calls on the coordinator alone, collecting the
dispatched generate messages.  Calls that throw on the readiness lookup or
suspend on an unresolved readiness promise leave the state unchanged and
dispatch nothing. -/
def runFetches (s : ISettings) : Coord → List FetchInput → Coord × List GenerateMsg
  | c, [] => (c, [])
  | c, i :: rest =>
    match fetch c s i.mimeType i.text i.offset with
    | FetchResult.ok c2 msg _ =>
      let (c3, msgs) := runFetches s c2 rest
      (c3, msg :: msgs)
    | FetchResult.blocked c2 =>
      let (c3, msgs) := runFetches s c2 rest
      (c3, msgs)
    | FetchResult.errorUndefinedReady c2 =>
      let (c3, msgs) := runFetches s c2 rest
      (c3, msgs)

/-- Numeric value of a decimal digit character. -/
def digitVal (c : Char) : Nat := c.toNat - 48

/-- Decimal parser, the left inverse of Nat.toDigits 10. -/
def parseDigits (l : List Char) : Nat := l.foldl (fun a c => 10 * a + digitVal c) 0

/-- Whether a worker message is an exception event carrying exactly the given
candidate-token list. -/
def carriesTokens (toks : List String) : WorkerMsg → Bool
  | WorkerMsg.exception (some ts) _ => ts = toks
  | _ => false

/-- Extract the generate message of a completed fetch call. -/
def fetchedMsg : FetchResult → Option GenerateMsg
  | FetchResult.ok _ msg _ => some msg
  | _ => none

/-! ### Concrete instances used by the claim theorems -/

/-- A coordinator state in which model m finished its load handshake: reached
from the initial state by dispatching an initiate and then a ready event. -/
def coordReadyM : Coord := msgReady (msgInitiate initCoord "m") "m"

/-- Settings selecting model m for text content, otherwise the defaults. -/
def settingsM : ISettings := { DEFAULT_SETTINGS with textModel := "m" }

/-- A coordinator with a pending stream delegate (cell 0) registered for
token T1. -/
def coordPendingT1 : Coord :=
  { initCoord with streamPromises := [("T1", 0)], delegates := [(0, Deleg.pending)] }

/-- Composite-system start state: model m is loaded on both sides, the shared
buffer is bound, and one consumer will stream token T1. -/
def sysStart : Sys :=
  { coord := coordReadyM
  , worker := { sharedBound := true, completionModels := ["m"] }
  , wgen := WGen.idle
  , toWorker := []
  , toFg := []
  , consumer := { token := "T1", hold := none, observed := [], dead := false } }

/-- Scheduler trace up to and including the second (superseding) fetch: the
first fetch mints T1 and T2, the worker streams a first chunk, the consumer
pulls T1 and observes the first update, the worker streams a second chunk
(reading the shared cell before the second fetch bumps it), then the second
fetch bumps the epoch and replaces the delegate map while the second-chunk
updates are still queued for delivery. -/
def traceToSecondFetch : List Act :=
  [ Act.fetchCall "text/plain" "" 0
  , Act.wstart
  , Act.pull
  , Act.wchunk { choices := [some "a", some "x"] }
  , Act.deliver
  , Act.deliver
  , Act.wake
  , Act.wchunk { choices := [some "b", some "y"] }
  , Act.fetchCall "text/plain" "" 0 ]

/-- Continuation after the superseding fetch: the consumer pulls T1 again
(re-registering it in the fresh delegate map), the stale update posted by the
superseded generation is delivered, and the consumer wakes. -/
def traceStaleDelivery : List Act := [Act.pull, Act.deliver, Act.wake]

/-- Generate message for the trim and completion claim: prompt of length two
and a single candidate. -/
def gC2 : GenerateMsg :=
  { model := "m", text := "ab", systemPrompt := "sp", temperature := 0, top_p := none
  , generateN := 1, frequency_penalty := 0, presence_penalty := 0
  , idTokens := ["T1"], counter := 5, max_gen_len := none }

/-- Generate message for the load-failure claim. -/
def gC4 : GenerateMsg :=
  { model := "m", text := "x", systemPrompt := "sp", temperature := 0, top_p := none
  , generateN := 2, frequency_penalty := 0, presence_penalty := 0
  , idTokens := ["T7", "T8"], counter := 0, max_gen_len := none }

/-- The generate message dispatched by the concrete fetch call of the
parameter-passing claim, spelled out. -/
def msgC7 : GenerateMsg :=
  { model := "m"
  , text := "def add(a, b):"
  , systemPrompt := "You are a completion model generating Markdown suggestions"
  , temperature := 1/2
  , top_p := none
  , generateN := 2
  , frequency_penalty := 0
  , presence_penalty := 0
  , idTokens := ["T1", "T2"]
  , counter := 1
  , max_gen_len := none }

/-- Two fetch inputs used to witness the epoch-monotonicity claim. -/
def insW : List FetchInput :=
  [ { mimeType := "text/plain", text := "hello", offset := 3 }
  , { mimeType := "text/x-markdown", text := "ab", offset := 1 } ]

/-! ### Decimal representation: injectivity of Nat.repr

Candidate tokens are the character T followed by the decimal rendering of the
counter, so token distinctness reduces to injectivity of Nat.repr, proved here
through a round trip with an explicit decimal parser. -/

theorem toDigitsCore_acc (b : Nat) (hb : 1 < b) :
    ∀ (f n : Nat) (acc : List Char), n < f →
      Nat.toDigitsCore b f n acc = Nat.toDigitsCore b f n [] ++ acc := by
  intro f
  induction f with
  | zero => intro n acc h; omega
  | succ f ih =>
    intro n acc h
    simp only [Nat.toDigitsCore]
    by_cases hz : n / b = 0
    · simp [hz]
    · simp only [hz, if_false]
      have hn : 0 < n := by
        rcases Nat.eq_zero_or_pos n with h0 | h0
        · subst h0; simp at hz
        · exact h0
      have hlt : n / b < f := by
        have h1 : n / b < n := Nat.div_lt_self hn hb
        omega
      rw [ih (n / b) (Nat.digitChar (n % b) :: acc) hlt,
          ih (n / b) [Nat.digitChar (n % b)] hlt]
      simp

theorem toDigitsCore_fuel (b : Nat) (hb : 1 < b) :
    ∀ (n f g : Nat), n < f → n < g →
      Nat.toDigitsCore b f n [] = Nat.toDigitsCore b g n [] := by
  intro n
  induction n using Nat.strong_induction_on with
  | _ n ih =>
    intro f g hf hg
    match f, g with
    | f + 1, g + 1 =>
      simp only [Nat.toDigitsCore]
      by_cases hz : n / b = 0
      · simp [hz]
      · simp only [hz, if_false]
        have hn : 0 < n := by
          rcases Nat.eq_zero_or_pos n with h0 | h0
          · subst h0; simp at hz
          · exact h0
        have h1 : n / b < n := Nat.div_lt_self hn hb
        rw [toDigitsCore_acc b hb f (n / b) _ (by omega),
            toDigitsCore_acc b hb g (n / b) _ (by omega),
            ih (n / b) h1 f g (by omega) (by omega)]

theorem toDigits_step (n : Nat) :
    Nat.toDigits 10 n =
      (if n / 10 = 0 then [] else Nat.toDigits 10 (n / 10)) ++ [Nat.digitChar (n % 10)] := by
  by_cases hz : n / 10 = 0
  · simp only [hz, if_true, List.nil_append]
    show Nat.toDigitsCore 10 (n + 1) n [] = _
    simp [Nat.toDigitsCore, hz]
  · simp only [hz, if_false]
    show Nat.toDigitsCore 10 (n + 1) n [] = _
    simp only [Nat.toDigitsCore, hz, if_false]
    have hn : 0 < n := by
      rcases Nat.eq_zero_or_pos n with h0 | h0
      · subst h0; simp at hz
      · exact h0
    have h1 : n / 10 < n := Nat.div_lt_self hn (by omega)
    rw [toDigitsCore_acc 10 (by omega) n (n / 10) _ (by omega)]
    show _ ++ _ = Nat.toDigitsCore 10 (n / 10 + 1) (n / 10) [] ++ _
    rw [toDigitsCore_fuel 10 (by omega) (n / 10) n (n / 10 + 1) (by omega) (by omega)]

theorem parseDigits_append (l : List Char) (c : Char) :
    parseDigits (l ++ [c]) = 10 * parseDigits l + digitVal c := by
  simp [parseDigits, List.foldl_append]

theorem digitVal_digitChar (d : Nat) (h : d < 10) :
    digitVal (Nat.digitChar d) = d := by
  interval_cases d <;> rfl

theorem parseDigits_toDigits (n : Nat) : parseDigits (Nat.toDigits 10 n) = n := by
  induction n using Nat.strong_induction_on with
  | _ n ih =>
    rw [toDigits_step, parseDigits_append, digitVal_digitChar (n % 10) (by omega)]
    by_cases hz : n / 10 = 0
    · simp only [hz, if_true]
      have hp : parseDigits [] = 0 := rfl
      simp only [hp]
      omega
    · simp only [hz, if_false]
      have hn : 0 < n := by
        rcases Nat.eq_zero_or_pos n with h0 | h0
        · subst h0; simp at hz
        · exact h0
      rw [ih (n / 10) (Nat.div_lt_self hn (by omega))]
      omega

theorem repr_injective : Function.Injective Nat.repr := by
  intro n m h
  have h2 : Nat.toDigits 10 n = Nat.toDigits 10 m := by
    have h3 := congrArg String.data h
    simpa [Nat.repr, List.asString] using h3
  have h4 := congrArg parseDigits h2
  rwa [parseDigits_toDigits, parseDigits_toDigits] at h4

theorem mintToken_injective : Function.Injective mintToken := by
  intro n m h
  have h2 := congrArg String.data h
  have h3 : ("T" ++ Nat.repr n).data = ("T" ++ Nat.repr m).data := h2
  simp only [String.data_append] at h3
  have h4 : (Nat.repr n).data = (Nat.repr m).data := List.append_cancel_left h3
  exact repr_injective (show Nat.repr n = Nat.repr m from
    congrArg List.asString h4 |>.trans (by simp [List.asString]) |>.symm.trans
      (by simp [List.asString]) |>.symm)

/-! ### Shape lemmas for fetch and fetch sequences -/

theorem mintTokens_spec (n : Nat) : ∀ counter : Nat,
    mintTokens counter n = (counter + n, (List.range' (counter + 1) n).map mintToken) := by
  induction n with
  | zero => intro c; simp [mintTokens]
  | succ n ih =>
    intro c
    have hr : List.range' (c + 1) (n + 1) = (c + 1) :: List.range' (c + 2) n :=
      List.range'_succ (c + 1) n 1
    simp [mintTokens, ih, hr]
    omega

/-- A fetch call whose selected model has no readiness entry throws on the
undefined lookup, before any state is mutated and before any message is
dispatched. -/
theorem fetch_error_of_absent (c : Coord) (s : ISettings) (mimeType text : String)
    (offset : Nat) (h : lookupEntry (selectedModel s mimeType) c.ready = none) :
    fetch c s mimeType text offset = FetchResult.errorUndefinedReady c := by
  simp only [selectedModel] at h
  simp only [fetch, h]

/-- A fetch call whose selected model has a pending readiness delegate
suspends on the await, with no state mutated at the suspension point. -/
theorem fetch_blocked_of_pending (c : Coord) (s : ISettings) (mimeType text : String)
    (offset : Nat) (h : lookupEntry (selectedModel s mimeType) c.ready = some false) :
    fetch c s mimeType text offset = FetchResult.blocked c := by
  simp only [selectedModel] at h
  simp only [fetch, h]

/-- Shape of a completed fetch call: the epoch is bumped by one and written to
the shared cell, the delegate map is replaced by an empty one, generateN fresh
consecutive tokens are minted, and the dispatched generate message carries the
new epoch and all sampling parameters except max_gen_len, which the posted
object literal leaves unset. -/
theorem fetch_ok_of_ready (c : Coord) (s : ISettings) (mimeType text : String)
    (offset : Nat) (h : lookupEntry (selectedModel s mimeType) c.ready = some true) :
    fetch c s mimeType text offset = FetchResult.ok
      { c with currentGeneration := c.currentGeneration + 1
             , shared := c.currentGeneration + 1
             , streamPromises := []
             , tokenCounter := c.tokenCounter + s.generateN }
      { model := selectedModel s mimeType
      , text := prefixFromRequest s.maxContextWindow text offset
      , systemPrompt := systemPromptFor (classifyIsText mimeType)
      , temperature := s.temperature
      , top_p := s.top_p
      , generateN := s.generateN
      , frequency_penalty := s.frequency_penalty
      , presence_penalty := s.presence_penalty
      , idTokens := (List.range' (c.tokenCounter + 1) s.generateN).map mintToken
      , counter := c.currentGeneration + 1
      , max_gen_len := none }
      (((List.range' (c.tokenCounter + 1) s.generateN).map mintToken).map (fun t =>
        { insertText := "", isIncomplete := true, token := t })) := by
  have h2 : lookupEntry (if classifyIsText mimeType then s.textModel else s.codeModel)
      c.ready = some true := h
  simp [fetch, h2, abortPrevious, tickWorker, mintTokens_spec, selectedModel]

/-- Every completed fetch in a sequence bumps the epoch by exactly one, the
readiness table is never modified, and the dispatched messages carry the
successive epoch values. -/
theorem runFetches_spec (s : ISettings) (ins : List FetchInput) : ∀ c : Coord,
    (∀ i ∈ ins, lookupEntry (selectedModel s i.mimeType) c.ready = some true) →
    (runFetches s c ins).1.currentGeneration = c.currentGeneration + ins.length ∧
    (runFetches s c ins).1.ready = c.ready ∧
    (runFetches s c ins).2.map GenerateMsg.counter =
      List.range' (c.currentGeneration + 1) ins.length := by
  induction ins with
  | nil => intro c _; simp [runFetches]
  | cons i rest ih =>
    intro c h
    have hi := h i (List.mem_cons_self i rest)
    have hf := fetch_ok_of_ready c s i.mimeType i.text i.offset hi
    have hready : (∀ j ∈ rest,
        lookupEntry (selectedModel s j.mimeType)
          ({ c with currentGeneration := c.currentGeneration + 1
                  , shared := c.currentGeneration + 1
                  , streamPromises := []
                  , tokenCounter := c.tokenCounter + s.generateN } : Coord).ready
            = some true) :=
      fun j hj => h j (List.mem_cons_of_mem i hj)
    obtain ⟨h1, h2, h3⟩ := ih _ hready
    rcases hrr : runFetches s
        ({ c with currentGeneration := c.currentGeneration + 1
                , shared := c.currentGeneration + 1
                , streamPromises := []
                , tokenCounter := c.tokenCounter + s.generateN } : Coord) rest
      with ⟨c3, msgs⟩
    rw [hrr] at h1 h2 h3
    rw [runFetches, hf]
    dsimp only
    rw [hrr]
    dsimp only at h1 h2 h3 ⊢
    refine ⟨?_, h2, ?_⟩
    · simp only [List.length_cons]
      omega
    · have hr : List.range' (c.currentGeneration + 1) (rest.length + 1) =
          (c.currentGeneration + 1) :: List.range' (c.currentGeneration + 2) rest.length :=
        List.range'_succ _ _ 1
      simp only [List.length_cons, hr, List.map_cons, h3]

theorem range'_pairwise_lt (n : Nat) : ∀ s : Nat, (List.range' s n).Pairwise (· < ·) := by
  induction n with
  | zero => intro s; simp
  | succ n ih =>
    intro s
    rw [List.range'_succ]
    refine List.Pairwise.cons ?_ (ih (s + 1))
    intro b hb
    have := List.mem_range'_1.mp hb
    omega

/-- The token counters consumed by a sequence of fetch calls form one
contiguous strictly increasing range starting right after the starting
counter; calls that fail on the readiness lookup or suspend on the await mint
nothing. -/
theorem runFetches_tokens (s : ISettings) (ins : List FetchInput) : ∀ c : Coord,
    ∃ M : Nat, (runFetches s c ins).1.tokenCounter = c.tokenCounter + M ∧
      (runFetches s c ins).2.flatMap GenerateMsg.idTokens =
        (List.range' (c.tokenCounter + 1) M).map mintToken := by
  induction ins with
  | nil => intro c; exact ⟨0, by simp [runFetches], by simp [runFetches]⟩
  | cons i rest ih =>
    intro c
    rcases hl : lookupEntry (selectedModel s i.mimeType) c.ready with _ | b
    · have hf := fetch_error_of_absent c s i.mimeType i.text i.offset hl
      rw [runFetches, hf]
      dsimp only
      rcases hrr : runFetches s c rest with ⟨c3, msgs⟩
      obtain ⟨M, h1, h2⟩ := ih c
      rw [hrr] at h1 h2
      exact ⟨M, h1, h2⟩
    · cases b
      · have hf := fetch_blocked_of_pending c s i.mimeType i.text i.offset hl
        rw [runFetches, hf]
        dsimp only
        rcases hrr : runFetches s c rest with ⟨c3, msgs⟩
        obtain ⟨M, h1, h2⟩ := ih c
        rw [hrr] at h1 h2
        exact ⟨M, h1, h2⟩
      · have hf := fetch_ok_of_ready c s i.mimeType i.text i.offset hl
        obtain ⟨M, h1, h2⟩ := ih
          ({ c with currentGeneration := c.currentGeneration + 1
                  , shared := c.currentGeneration + 1
                  , streamPromises := []
                  , tokenCounter := c.tokenCounter + s.generateN } : Coord)
        rcases hrr : runFetches s
            ({ c with currentGeneration := c.currentGeneration + 1
                    , shared := c.currentGeneration + 1
                    , streamPromises := []
                    , tokenCounter := c.tokenCounter + s.generateN } : Coord) rest
          with ⟨c3, msgs⟩
        rw [hrr] at h1 h2
        rw [runFetches, hf]
        dsimp only
        rw [hrr]
        dsimp only at h1 h2 ⊢
        refine ⟨s.generateN + M, by omega, ?_⟩
        show (List.range' (c.tokenCounter + 1) s.generateN).map mintToken
            ++ msgs.flatMap GenerateMsg.idTokens = _
        rw [h2]
        have ha := List.range'_append (c.tokenCounter + 1) s.generateN M 1
        simp only [Nat.one_mul] at ha
        rw [← List.map_append]
        rw [show c.tokenCounter + s.generateN + 1 = c.tokenCounter + 1 + s.generateN by omega,
            ha]
        rw [show M + s.generateN = s.generateN + M by omega]

/-! ### Association-list and delegate-heap lemmas -/

theorem lookupEntry_eraseEntry_ne {β : Type} (t t2 : String) (l : List (String × β))
    (h : t ≠ t2) : lookupEntry t (eraseEntry t2 l) = lookupEntry t l := by
  induction l with
  | nil => rfl
  | cons p rest ih =>
    rcases p with ⟨k, v⟩
    by_cases hk : k = t2
    · subst hk
      have hne : ¬ (k = t) := fun he => h he.symm
      simp [eraseEntry, lookupEntry, hne]
    · simp only [eraseEntry, if_neg hk, lookupEntry]
      by_cases hk2 : k = t
      · simp [hk2]
      · simp [hk2, ih]

theorem lookupEntry_none_eraseEntry {β : Type} (t t2 : String) (l : List (String × β))
    (h : lookupEntry t l = none) : lookupEntry t (eraseEntry t2 l) = none := by
  induction l with
  | nil => rfl
  | cons p rest ih =>
    rcases p with ⟨k, v⟩
    simp only [lookupEntry] at h
    by_cases hk : k = t
    · simp [hk] at h
    · simp only [if_neg hk] at h
      by_cases h2 : k = t2
      · simp only [eraseEntry, if_pos h2]
        exact h
      · simp only [eraseEntry, if_neg h2, lookupEntry, if_neg hk]
        exact ih h

theorem lookupEntry_none_of_not_mem {β : Type} (t : String) (l : List (String × β))
    (h : t ∉ l.map Prod.fst) : lookupEntry t l = none := by
  induction l with
  | nil => rfl
  | cons p rest ih =>
    rcases p with ⟨k, v⟩
    simp only [List.map_cons, List.mem_cons] at h
    push_neg at h
    have hne : ¬ (k = t) := fun he => h.1 he.symm
    simp only [lookupEntry, if_neg hne]
    exact ih h.2

theorem lookupEntry_eraseEntry_self {β : Type} (t : String) (l : List (String × β))
    (h : (l.map Prod.fst).Nodup) : lookupEntry t (eraseEntry t l) = none := by
  induction l with
  | nil => rfl
  | cons p rest ih =>
    rcases p with ⟨k, v⟩
    simp only [List.map_cons, List.nodup_cons] at h
    by_cases hk : k = t
    · simp only [eraseEntry, if_pos hk]
      subst hk
      exact lookupEntry_none_of_not_mem k rest h.1
    · simp only [eraseEntry, if_neg hk, lookupEntry, if_neg hk]
      exact ih h.2

theorem eraseEntry_sublist {β : Type} (t2 : String) (l : List (String × β)) :
    List.Sublist (eraseEntry t2 l) l := by
  induction l with
  | nil => simp [eraseEntry]
  | cons p rest ih =>
    rcases p with ⟨k, v⟩
    by_cases hk : k = t2
    · simp only [eraseEntry, if_pos hk]
      exact List.sublist_cons_self _ _
    · simp only [eraseEntry, if_neg hk]
      exact ih.cons₂ _

theorem eraseEntry_keys_nodup {β : Type} (t2 : String) (l : List (String × β))
    (h : (l.map Prod.fst).Nodup) : ((eraseEntry t2 l).map Prod.fst).Nodup :=
  List.Nodup.sublist ((eraseEntry_sublist t2 l).map Prod.fst) h

theorem getDeleg_setDeleg_self (d : Nat) (v : Deleg) (heap : List (Nat × Deleg)) :
    getDeleg d (setDeleg d v heap) = some v := by
  induction heap with
  | nil => simp [setDeleg, getDeleg]
  | cons p rest ih =>
    rcases p with ⟨k, w⟩
    by_cases hk : k = d
    · simp [setDeleg, hk, getDeleg]
    · simp [setDeleg, hk, getDeleg, ih]

theorem getDeleg_setDeleg_ne (d d2 : Nat) (v : Deleg) (heap : List (Nat × Deleg))
    (h : d ≠ d2) : getDeleg d (setDeleg d2 v heap) = getDeleg d heap := by
  have hne : ¬ (d2 = d) := fun he => h he.symm
  induction heap with
  | nil =>
    simp only [setDeleg, getDeleg, if_neg hne]
  | cons p rest ih =>
    rcases p with ⟨k, w⟩
    by_cases hk : k = d2
    · subst hk
      simp only [setDeleg, if_pos rfl, getDeleg, if_neg hne]
    · simp only [setDeleg, if_neg hk, getDeleg]
      by_cases hk2 : k = d
      · simp [hk2]
      · simp [hk2, ih]

theorem rejectDeleg_sp (c : Coord) (d : Nat) :
    (rejectDeleg c d).streamPromises = c.streamPromises := by
  rcases hg : getDeleg d c.delegates with _ | v
  · simp [rejectDeleg, hg]
  · cases v <;> simp [rejectDeleg, hg]

theorem rejectDeleg_rejected (c : Coord) (d : Nat)
    (h : getDeleg d c.delegates = some Deleg.pending) :
    getDeleg d (rejectDeleg c d).delegates = some Deleg.rejected := by
  simp only [rejectDeleg, h]
  exact getDeleg_setDeleg_self d Deleg.rejected c.delegates

theorem rejectDeleg_keeps_rejected (c : Coord) (d d2 : Nat)
    (h : getDeleg d c.delegates = some Deleg.rejected) :
    getDeleg d (rejectDeleg c d2).delegates = some Deleg.rejected := by
  by_cases hd : d = d2
  · subst hd
    simp [rejectDeleg, h]
  · rcases hg : getDeleg d2 c.delegates with _ | v
    · simp [rejectDeleg, hg, h]
    · cases v with
      | pending =>
        simp only [rejectDeleg, hg]
        rw [getDeleg_setDeleg_ne d d2 _ _ hd]
        exact h
      | resolved s => simp [rejectDeleg, hg, h]
      | rejected => simp [rejectDeleg, hg, h]

theorem rejectDeleg_keeps_pending (c : Coord) (d d2 : Nat) (hd : d ≠ d2)
    (h : getDeleg d c.delegates = some Deleg.pending) :
    getDeleg d (rejectDeleg c d2).delegates = some Deleg.pending := by
  rcases hg : getDeleg d2 c.delegates with _ | v
  · simp [rejectDeleg, hg, h]
  · cases v with
    | pending =>
      simp only [rejectDeleg, hg]
      rw [getDeleg_setDeleg_ne d d2 _ _ hd]
      exact h
    | resolved s => simp [rejectDeleg, hg, h]
    | rejected => simp [rejectDeleg, hg, h]

/-! ### msgInterrupted lemmas -/

theorem msgInterrupted_sp_none : ∀ (ts : List String) (c : Coord) (t : String),
    lookupEntry t c.streamPromises = none →
    lookupEntry t (msgInterrupted c ts).streamPromises = none := by
  intro ts
  induction ts with
  | nil => intro c t h; exact h
  | cons t2 rest ih =>
    intro c t h
    rw [msgInterrupted]
    rcases hl : lookupEntry t2 c.streamPromises with _ | d
    · exact ih _ t (lookupEntry_none_eraseEntry t t2 _ h)
    · refine ih _ t ?_
      rw [rejectDeleg_sp]
      exact lookupEntry_none_eraseEntry t t2 _ h

theorem msgInterrupted_keeps_rejected : ∀ (ts : List String) (c : Coord) (d : Nat),
    getDeleg d c.delegates = some Deleg.rejected →
    getDeleg d (msgInterrupted c ts).delegates = some Deleg.rejected := by
  intro ts
  induction ts with
  | nil => intro c d h; exact h
  | cons t2 rest ih =>
    intro c d h
    rw [msgInterrupted]
    rcases hl : lookupEntry t2 c.streamPromises with _ | d2
    · exact ih _ d h
    · exact ih _ d (rejectDeleg_keeps_rejected c d d2 h)

theorem msgInterrupted_keys_nodup : ∀ (ts : List String) (c : Coord),
    (c.streamPromises.map Prod.fst).Nodup →
    ((msgInterrupted c ts).streamPromises.map Prod.fst).Nodup := by
  intro ts
  induction ts with
  | nil => intro c h; exact h
  | cons t2 rest ih =>
    intro c h
    rw [msgInterrupted]
    rcases hl : lookupEntry t2 c.streamPromises with _ | d
    · exact ih _ (eraseEntry_keys_nodup t2 _ h)
    · refine ih _ ?_
      rw [rejectDeleg_sp]
      exact eraseEntry_keys_nodup t2 _ h

theorem msgInterrupted_erased : ∀ (ts : List String) (c : Coord) (t : String),
    (c.streamPromises.map Prod.fst).Nodup → t ∈ ts →
    lookupEntry t (msgInterrupted c ts).streamPromises = none := by
  intro ts
  induction ts with
  | nil => intro c t _ hm; cases hm
  | cons t2 rest ih =>
    intro c t hnd hm
    rw [msgInterrupted]
    by_cases ht : t = t2
    · subst ht
      rcases hl : lookupEntry t c.streamPromises with _ | d
      · exact msgInterrupted_sp_none rest _ t (lookupEntry_eraseEntry_self t _ hnd)
      · refine msgInterrupted_sp_none rest _ t ?_
        rw [rejectDeleg_sp]
        exact lookupEntry_eraseEntry_self t _ hnd
    · have hm2 : t ∈ rest := by
        rcases List.mem_cons.mp hm with h1 | h1
        · exact absurd h1 ht
        · exact h1
      rcases hl : lookupEntry t2 c.streamPromises with _ | d
      · exact ih _ t (eraseEntry_keys_nodup t2 _ hnd) hm2
      · refine ih _ t ?_ hm2
        rw [rejectDeleg_sp]
        exact eraseEntry_keys_nodup t2 _ hnd

theorem msgInterrupted_rejects : ∀ (ts : List String) (c : Coord) (t : String) (d : Nat),
    t ∈ ts →
    lookupEntry t c.streamPromises = some d →
    getDeleg d c.delegates = some Deleg.pending →
    getDeleg d (msgInterrupted c ts).delegates = some Deleg.rejected := by
  intro ts
  induction ts with
  | nil => intro c t d hm; cases hm
  | cons t2 rest ih =>
    intro c t d hm hlk hp
    rw [msgInterrupted]
    by_cases ht : t = t2
    · subst ht
      rw [hlk]
      exact msgInterrupted_keeps_rejected rest _ d (rejectDeleg_rejected c d hp)
    · have hm2 : t ∈ rest := by
        rcases List.mem_cons.mp hm with h1 | h1
        · exact absurd h1 ht
        · exact h1
      rcases hl : lookupEntry t2 c.streamPromises with _ | d2
      · exact ih _ t d hm2 (by rwa [lookupEntry_eraseEntry_ne t t2 _ ht]) hp
      · by_cases hd : d = d2
        · subst hd
          refine msgInterrupted_keeps_rejected rest _ d ?_
          exact rejectDeleg_rejected c d hp
        · refine ih _ t d hm2 ?_ ?_
          · rw [rejectDeleg_sp]
            rwa [lookupEntry_eraseEntry_ne t t2 _ ht]
          · exact rejectDeleg_keeps_pending c d d2 hd hp

/-- After a rejection outcome, the stream generator yields nothing further no
matter what outcomes would follow. -/
theorem streamYields_stops_at_rejection : ∀ (obs rest : List PullOutcome),
    streamYields (obs ++ PullOutcome.rejection :: rest) =
      streamYields (obs ++ [PullOutcome.rejection]) := by
  intro obs
  induction obs with
  | nil => intro rest; rfl
  | cons o obs2 ih =>
    intro rest
    cases o with
    | rejection => rfl
    | value v =>
      simp only [List.cons_append, streamYields]
      by_cases hv : v.done
      · simp [hv]
      · simp [hv, ih]

/-- A model already present in the registry short-circuits every further
initializeModel call: no event, no new load, no state change. -/
theorem repeatInit_existing (m : String) : ∀ (k : Nat) (st : WorkerSt),
    st.completionModels.contains m = true → repeatInit st m k = (st, [], 0) := by
  intro k
  induction k with
  | zero => intro st _; rfl
  | succ k ih =>
    intro st h
    have hmem : m ∈ st.completionModels := by simpa using h
    rw [repeatInit]
    simp [initializeModel, hmem, ih st h]

/-! ### Claim theorems -/

/-- C1: the claim states that once fetch is called a second time before the
first request stream drains, pulling a token of the first request yields no
further values or exactly one rejection, never a value with stale content,
because the stream delegates were replaced.  The code violates this: the
stream generator re-registers its token in whatever delegate map is current,
so a consumer pull issued after the superseding fetch re-installs the old
token in the new map and a queued update from the superseded generation then
resolves it.  Running the concrete interleaving: after the second fetch (epoch
2) the consumer has observed only the first-generation value a; three more
enabled actions (pull, deliver, wake) make the pull yield the value ab, stale
content produced entirely by the superseded first generation. -/
theorem c1_superseded_request_yields_stale_value :
    (runActs settingsM sysStart traceToSecondFetch).map
        (fun y => (y.consumer.observed, y.coord.currentGeneration)) =
      some ([PullOutcome.value { done := false, insertText := "a" }], 2) ∧
    (runActs settingsM sysStart (traceToSecondFetch ++ traceStaleDelivery)).map
        (fun y => y.consumer.observed) =
      some [ PullOutcome.value { done := false, insertText := "a" }
           , PullOutcome.value { done := false, insertText := "ab" } ] := by
  constructor <;> rfl

/-- C2: the claim states that update events carry the accumulated output with
the first promptLength characters trimmed, and that a normally ending stream
emits exactly one complete event per candidate with the final trimmed text.
The update part holds (the event carries the accumulated output with the
prompt length dropped), but the completion loop evaluates the generated_text
property on a plain string buffer, which is undefined, and throws a TypeError
before emitting any complete event: with prompt ab (length 2), one candidate
and one chunk with delta abc, the run emits the correctly trimmed update c and
then escapes with a TypeError, emitting zero complete events. -/
theorem c2_normal_end_emits_no_complete_event :
    generateRun true (Except.ok ()) 5 gC2 [(5, { choices := [some "abc"] })] =
      ([WorkerMsg.update "T1" "c"], some JsErr.typeError) := by
  rfl

/-- C3 counterexample: the claim states the Coordinator, on an exception
event listing candidate tokens, rejects and releases every pending stream
delegate listed.  In the concrete state with a pending delegate (cell 0) for
token T1, dispatching an exception event listing T1 leaves the delegate
pending and still registered: the claim is false on the code. -/
theorem c3_exception_leaves_delegate_pending :
    getDeleg 0 (dispatch coordPendingT1
        (WorkerMsg.exception (some ["T1"]) (some "boom"))).delegates
      = some Deleg.pending ∧
    lookupEntry "T1" (dispatch coordPendingT1
        (WorkerMsg.exception (some ["T1"]) (some "boom"))).streamPromises
      = some 0 ∧
    ¬ getDeleg 0 (dispatch coordPendingT1
        (WorkerMsg.exception (some ["T1"]) (some "boom"))).delegates
      = some Deleg.rejected := by
  refine ⟨rfl, rfl, ?_⟩
  decide

/-- C3 (amended): on an exception event the Coordinator only shows an error
notification (and logs the event); it rejects nothing and releases nothing,
so the pending pulls of the affected candidate tokens remain pending. -/
theorem c3_exception_notifies_only (c : Coord) (toks : Option (List String))
    (e : Option String) :
    (dispatch c (WorkerMsg.exception toks e)).streamPromises = c.streamPromises ∧
    (dispatch c (WorkerMsg.exception toks e)).delegates = c.delegates ∧
    (dispatch c (WorkerMsg.exception toks e)).notifications =
      c.notifications ++ ["Worker error: " ++ e.getD "undefined"] :=
  ⟨rfl, rfl, rfl⟩

/-- C4 counterexample: the claim states that on a model-load failure the
Executor emits an exception event carrying the request candidate tokens.  At
the concrete failing load, the only emitted event is an exception without any
token list, so no emitted event carries the candidate tokens. -/
theorem c4_load_failure_event_lacks_tokens :
    ((generateRun true (Except.error "boom") 0 gC4 []).1.any
        (carriesTokens gC4.idTokens)) = false ∧
    (generateRun true (Except.error "boom") 0 gC4 []).1 =
      [WorkerMsg.exception none (some "boom")] := by
  constructor <;> rfl

/-- C4 (amended): on a model-load failure the Executor emits exactly one
exception event carrying only the error and no candidate-token list, and
aborts without emitting any update or complete event. -/
theorem c4_load_failure_exception_without_tokens (e : String) (sharedAtStart : Nat)
    (g : GenerateMsg) (chunks : List (Nat × Chunk)) :
    generateRun true (Except.error e) sharedAtStart g chunks =
      ([WorkerMsg.exception none (some e)], none) :=
  rfl

/-- C5: over any sequence of completed fetch calls from a coordinator whose
epoch starts at 0, the epoch after K calls equals K, and the dispatched
generate messages carry the successive epoch values 1..K, a strictly
increasing sequence, each equal to the epoch current at its submission. -/
theorem c5_epoch_monotonic (s : ISettings) (c : Coord) (ins : List FetchInput)
    (h0 : c.currentGeneration = 0)
    (h : ∀ i ∈ ins, lookupEntry (selectedModel s i.mimeType) c.ready = some true) :
    (runFetches s c ins).1.currentGeneration = ins.length ∧
    (runFetches s c ins).2.map GenerateMsg.counter = List.range' 1 ins.length ∧
    ((runFetches s c ins).2.map GenerateMsg.counter).Pairwise (· < ·) := by
  obtain ⟨h1, _, h3⟩ := runFetches_spec s ins c h
  rw [h0] at h1 h3
  have h3n : (runFetches s c ins).2.map GenerateMsg.counter =
      List.range' 1 ins.length := by
    simpa using h3
  exact ⟨by omega, h3n, h3n ▸ range'_pairwise_lt ins.length 1⟩

/-- C5 witness: two completed fetch calls on a coordinator with model m ready
take the epoch from 0 to 2 and dispatch messages carrying epochs 1 and 2. -/
theorem c5_epoch_monotonic_witness :
    coordReadyM.currentGeneration = 0 ∧
    (∀ i ∈ insW,
      lookupEntry (selectedModel settingsM i.mimeType) coordReadyM.ready = some true) ∧
    ((runFetches settingsM coordReadyM insW).1.currentGeneration = insW.length ∧
     (runFetches settingsM coordReadyM insW).2.map GenerateMsg.counter =
       List.range' 1 insW.length ∧
     ((runFetches settingsM coordReadyM insW).2.map GenerateMsg.counter).Pairwise
       (· < ·)) :=
  ⟨by decide, by decide,
   c5_epoch_monotonic settingsM coordReadyM insW (by decide) (by decide)⟩

/-- C6: the claim states a repeated initializeModel without dispose yields
exactly one load sequence of one initiate, one done and one ready event.  The
registry does deduplicate (one initiate event, one load started, one done on
load completion), but no code path of the worker emits a ready event and
there is no compilation or warm-up step: the combined event list of n
repeated calls plus the completed load counts one initiate, one done and
zero ready events. -/
theorem c6_one_load_sequence_but_no_ready (st : WorkerSt) (m : String) (n : Nat)
    (reports : List (String × Rat × Rat))
    (habs : st.completionModels.contains m = false) (hn : 0 < n) :
    (repeatInit st m n).2.1 = [WorkerMsg.initiate m] ∧
    (repeatInit st m n).2.2 = 1 ∧
    ((repeatInit st m n).2.1 ++ loadEvents m reports (Except.ok ())).count
        (WorkerMsg.initiate m) = 1 ∧
    ((repeatInit st m n).2.1 ++ loadEvents m reports (Except.ok ())).count
        (WorkerMsg.done m) = 1 ∧
    ((repeatInit st m n).2.1 ++ loadEvents m reports (Except.ok ())).count
        (WorkerMsg.ready m) = 0 := by
  rcases n with _ | k
  · omega
  · have hstep : repeatInit st m (k + 1) =
        ({ st with completionModels := m :: st.completionModels },
         [WorkerMsg.initiate m], 1) := by
      rw [repeatInit]
      have hmem : m ∉ st.completionModels := by simpa using habs
      have hcons : ({ st with completionModels := m :: st.completionModels }
          : WorkerSt).completionModels.contains m = true := by
        simp [List.contains_cons]
      simp [initializeModel, hmem, repeatInit_existing m k _ hcons]
    rw [hstep]
    refine ⟨rfl, rfl, ?_, ?_, ?_⟩
    · simp [loadEvents, List.count_append, List.count_cons, List.count_eq_zero]
    · simp [loadEvents, List.count_append, List.count_cons, List.count_eq_zero]
    · simp [loadEvents, List.count_append, List.count_cons, List.count_eq_zero]

/-- C6 witness: two repeated initializeModel calls for a model absent from
the registry, with one progress report and a successful load. -/
theorem c6_one_load_sequence_but_no_ready_witness :
    (({ sharedBound := true, completionModels := [] } : WorkerSt).completionModels.contains
        "llama" = false) ∧
    (0 < 2) ∧
    ((repeatInit { sharedBound := true, completionModels := [] } "llama" 2).2.1 =
        [WorkerMsg.initiate "llama"] ∧
     (repeatInit { sharedBound := true, completionModels := [] } "llama" 2).2.2 = 1 ∧
     ((repeatInit { sharedBound := true, completionModels := [] } "llama" 2).2.1
        ++ loadEvents "llama" [("shard", 1/2, 3)] (Except.ok ())).count
          (WorkerMsg.initiate "llama") = 1 ∧
     ((repeatInit { sharedBound := true, completionModels := [] } "llama" 2).2.1
        ++ loadEvents "llama" [("shard", 1/2, 3)] (Except.ok ())).count
          (WorkerMsg.done "llama") = 1 ∧
     ((repeatInit { sharedBound := true, completionModels := [] } "llama" 2).2.1
        ++ loadEvents "llama" [("shard", 1/2, 3)] (Except.ok ())).count
          (WorkerMsg.ready "llama") = 0) :=
  ⟨by decide, by decide,
   c6_one_load_sequence_but_no_ready { sharedBound := true, completionModels := [] }
     "llama" 2 [("shard", 1/2, 3)] (by decide) (by decide)⟩

/-- C7: the claim states the dispatched generate message carries the
systemPrompt and all sampling parameters including max_gen_len, and that the
Executor submits the engine call with exactly those parameters and that
systemPrompt as system message.  On the concrete fetch the dispatched message
indeed carries the systemPrompt, temperature, top_p and penalties, and the
engine request uses n equal to the candidate count — but the message leaves
max_gen_len unset (the posted object literal omits the field), so the engine
request gets no token limit, and the engine request system message is the
hard-coded pirate-chatbot string, not the message systemPrompt. -/
theorem c7_executor_parameter_mismatch :
    fetchedMsg (fetch coordReadyM settingsM "text/plain" "def add(a, b):" 14) =
      some msgC7 ∧
    msgC7.max_gen_len = none ∧
    (buildRequest msgC7).max_gen_len = none ∧
    (buildRequest msgC7).systemContent ≠ msgC7.systemPrompt ∧
    (buildRequest msgC7).n = msgC7.idTokens.length ∧
    (buildRequest msgC7).userContent = msgC7.text ∧
    (buildRequest msgC7).temperature = settingsM.temperature ∧
    (buildRequest msgC7).top_p = settingsM.top_p ∧
    (buildRequest msgC7).frequency_penalty = settingsM.frequency_penalty ∧
    (buildRequest msgC7).presence_penalty = settingsM.presence_penalty := by
  refine ⟨rfl, rfl, rfl, by decide, rfl, rfl, rfl, rfl, rfl, rfl⟩

/-- C8: on an interrupted event listing a token whose stream delegate is
pending, the pending pull fails without a value (the delegate is rejected,
never resolved), the token is removed from the delegate map, and the stream
generator yields no further values after a rejection outcome. -/
theorem c8_interrupted_rejects_pending_pull (c : Coord) (ts : List String) (t : String)
    (d : Nat) (e : Option String)
    (hnd : (c.streamPromises.map Prod.fst).Nodup)
    (hmem : t ∈ ts)
    (hlk : lookupEntry t c.streamPromises = some d)
    (hpend : getDeleg d c.delegates = some Deleg.pending) :
    getDeleg d (dispatch c (WorkerMsg.interrupted ts e)).delegates
      = some Deleg.rejected ∧
    lookupEntry t (dispatch c (WorkerMsg.interrupted ts e)).streamPromises = none ∧
    (∀ obs rest, streamYields (obs ++ PullOutcome.rejection :: rest) =
      streamYields (obs ++ [PullOutcome.rejection])) :=
  ⟨msgInterrupted_rejects ts c t d hmem hlk hpend,
   msgInterrupted_erased ts c t hnd hmem,
   streamYields_stops_at_rejection⟩

/-- C8 witness: the concrete pending delegate for T1 is rejected and removed
by an interrupted event listing T1 and T2. -/
theorem c8_interrupted_rejects_pending_pull_witness :
    (coordPendingT1.streamPromises.map Prod.fst).Nodup ∧
    "T1" ∈ ["T1", "T2"] ∧
    lookupEntry "T1" coordPendingT1.streamPromises = some 0 ∧
    getDeleg 0 coordPendingT1.delegates = some Deleg.pending ∧
    (getDeleg 0 (dispatch coordPendingT1
        (WorkerMsg.interrupted ["T1", "T2"] (some "stop"))).delegates
      = some Deleg.rejected ∧
     lookupEntry "T1" (dispatch coordPendingT1
        (WorkerMsg.interrupted ["T1", "T2"] (some "stop"))).streamPromises = none ∧
     (∀ obs rest, streamYields (obs ++ PullOutcome.rejection :: rest) =
       streamYields (obs ++ [PullOutcome.rejection]))) :=
  ⟨by decide, by decide, by decide, by decide,
   c8_interrupted_rejects_pending_pull coordPendingT1 ["T1", "T2"] "T1" 0 (some "stop")
     (by decide) (by decide) (by decide) (by decide)⟩

/-- C9: a fetch call whose selected model never produced an initiate event
(its readiness entry is undefined, as for the default code-model sentinel
none, which is never initialized) throws on the readiness lookup before the
epoch bump, before the delegate map is cleared and before any generate
message is dispatched: the result carries the coordinator state unchanged. -/
theorem c9_fetch_fails_before_any_mutation (c : Coord) (s : ISettings)
    (mimeType text : String) (offset : Nat)
    (h : lookupEntry (selectedModel s mimeType) c.ready = none) :
    fetch c s mimeType text offset = FetchResult.errorUndefinedReady c :=
  fetch_error_of_absent c s mimeType text offset h

/-- C9 witness: with default settings a code-classified request selects the
sentinel model none, which has no readiness entry in the initial state, and
the fetch throws with the state untouched. -/
theorem c9_fetch_fails_before_any_mutation_witness :
    lookupEntry (selectedModel DEFAULT_SETTINGS "text/x-python") initCoord.ready = none ∧
    fetch initCoord DEFAULT_SETTINGS "text/x-python" "x = 1" 5 =
      FetchResult.errorUndefinedReady initCoord :=
  ⟨by decide,
   c9_fetch_fails_before_any_mutation initCoord DEFAULT_SETTINGS "text/x-python" "x = 1" 5
     (by decide)⟩

/-- C10: across any sequence of fetch calls on one coordinator, the candidate
tokens of all dispatched generate messages are pairwise distinct: the token
counter increases strictly and is never reset, the consumed counter values
form one contiguous range, and the token renderings are injective in the
counter. -/
theorem c10_all_minted_tokens_distinct (s : ISettings) (c : Coord)
    (ins : List FetchInput) :
    ((runFetches s c ins).2.flatMap GenerateMsg.idTokens).Nodup := by
  obtain ⟨M, _, h2⟩ := runFetches_tokens s ins c
  rw [h2]
  refine List.Nodup.map mintToken_injective ?_
  exact List.Pairwise.imp (fun hab => Nat.ne_of_lt hab)
    (range'_pairwise_lt M (c.tokenCounter + 1))

end WebLLM
